import Mathlib

/-!
Verification of the MacDependency Mach-O parser (src/main.cpp).

The embedding below is a shallow model of the parser, translated from the
C++ source.  The input file and all in-memory buffers are lists of bytes
(`List Nat`, each byte reduced modulo 256).  The host is modelled as
little-endian (the platform of the source is macOS): a plain struct field
read is a little-endian read, and `OSSwapInt32` / `OSSwapInt64` are
unconditional byte reversals, exactly as in the source.  Reads past the
end of a buffer yield byte 0, matching the zero-initialised structs the
source reads into (`struct fat_arch fa {}` etc.); the witnesses and
counterexamples below keep all relevant reads in range so this convention
is never load-bearing.  `NXGetArchInfoFromCpuType` is a system-library
lookup, not code of this repository; it is modelled as an abstract
resolver parameter wherever possible, and by a small concrete table
(`nxResolve`) for concrete scenarios.
-/

namespace MacDep

/-- Byte `i` of buffer `f`; bytes are normalised modulo 256, out-of-range
reads yield 0 (zero-initialised read targets in the source). -/
def byteAt (f : List Nat) (i : Nat) : Nat := f.getD i 0 % 256

/-- Little-endian 32-bit read at byte offset `i` (a raw struct field read
on the little-endian host). -/
def readU32 (f : List Nat) (i : Nat) : Nat :=
  byteAt f i + 256 * byteAt f (i + 1) + 65536 * byteAt f (i + 2) +
    16777216 * byteAt f (i + 3)

/-- Little-endian 64-bit read at byte offset `i`. -/
def readU64 (f : List Nat) (i : Nat) : Nat :=
  readU32 f i + 4294967296 * readU32 f (i + 4)

/-- `OSSwapInt32`: unconditional byte reversal of a 32-bit value. -/
def swap32 (x : Nat) : Nat :=
  x % 256 * 16777216 + x / 256 % 256 * 65536 + x / 65536 % 256 * 256 +
    x / 16777216 % 256

/-- `OSSwapInt64`: unconditional byte reversal of a 64-bit value. -/
def swap64 (x : Nat) : Nat :=
  x % 256 * 72057594037927936 + x / 256 % 256 * 281474976710656 +
    x / 65536 % 256 * 1099511627776 + x / 16777216 % 256 * 4294967296 +
    x / 4294967296 % 256 * 16777216 + x / 1099511627776 % 256 * 65536 +
    x / 281474976710656 % 256 * 256 + x / 72057594037927936 % 256

/-- Little-endian byte encoding of a 32-bit value (how the host writes a
struct field; used to synthesise input files). -/
def u32 (x : Nat) : List Nat :=
  [x % 256, x / 256 % 256, x / 65536 % 256, x / 16777216 % 256]

/-- Read `n` bytes starting at `pos` (the `file.read` of the source:
bytes past the end of the file are left 0). -/
def readBytes (f : List Nat) (pos n : Nat) : List Nat :=
  (List.range n).map fun k => byteAt f (pos + k)

/-- Bytes up to (excluding) the first null byte: the C string read
`std::string(name)` performed on a `char *`.  The read is clipped at the
end of the modelled buffer (in the C++ source a string running past the
buffer is an out-of-bounds read; all concrete inputs below keep it in
range). -/
def takeUntilNull : List Nat → List Nat
  | [] => []
  | b :: bs => if b % 256 = 0 then [] else b % 256 :: takeUntilNull bs

/-- C string read starting at byte index `i` of buffer `f`. -/
def readCString (f : List Nat) (i : Nat) : List Nat :=
  takeUntilNull (f.drop i)

/-! Magic numbers and load command types from mach-o/loader.h and
mach-o/fat.h, as host-order values. -/

def MH_MAGIC : Nat := 4277009102      -- 0xfeedface
def MH_MAGIC_64 : Nat := 4277009103   -- 0xfeedfacf
def MH_CIGAM : Nat := 3472551422      -- 0xcefaedfe
def MH_CIGAM_64 : Nat := 3489328638   -- 0xcffaedfe
def FAT_MAGIC : Nat := 3405691582     -- 0xcafebabe
def FAT_MAGIC_64 : Nat := 3405691583  -- 0xcafebabf
def FAT_CIGAM : Nat := 3199925962     -- 0xbebafeca
def FAT_CIGAM_64 : Nat := 3216703178  -- 0xbfbafeca
def LC_LOAD_DYLIB : Nat := 12         -- 0xc
def LC_ID_DYLIB : Nat := 13           -- 0xd
def LC_LOAD_WEAK_DYLIB : Nat := 2147483672  -- 0x80000018
def LC_RPATH : Nat := 2147483676            -- 0x8000001c

/-- The `MachOInfo` record of the source: architecture name, install
name (`dylib_id`), dependency list and rpath list.  The architecture
name comes from the resolver and is a `String`; the other fields are
byte strings read from the file. -/
structure MachOInfo where
  arch : String
  dylib_id : List Nat
  deps : List (List Nat)
  rpaths : List (List Nat)
deriving DecidableEq

/-- The empty record a fresh `MachOInfo` holds before extraction. -/
def emptyInfo : MachOInfo := ⟨"", [], [], []⟩

/-- One dispatch step of `extractInfoFromHeader` (src/main.cpp lines
43-55): read the command type at `arrIndex`, and for the four recognised
types read the `lc_str` offset at `arrIndex + 8` and the C string at
`arrIndex + offset`.  No validation of the offset is performed, exactly
as in the source. -/
def stepInfo (cmds : List Nat) (arrIndex : Nat) (info : MachOInfo) : MachOInfo :=
  let cmd := readU32 cmds arrIndex
  if cmd = LC_LOAD_DYLIB ∨ cmd = LC_LOAD_WEAK_DYLIB then
    { info with deps := info.deps ++ [readCString cmds (arrIndex + readU32 cmds (arrIndex + 8))] }
  else if cmd = LC_RPATH then
    { info with rpaths := info.rpaths ++ [readCString cmds (arrIndex + readU32 cmds (arrIndex + 8))] }
  else if cmd = LC_ID_DYLIB then
    { info with dylib_id := readCString cmds (arrIndex + readU32 cmds (arrIndex + 8)) }
  else info

/-- The load-command loop of `extractInfoFromHeader` (src/main.cpp lines
33-58).  The fuel argument is the remaining iteration count of
`for (uint32_t i = 0; i < ncmds; i++)`; the guard is the boundary check
of line 34, verbatim; the cursor advances by the declared command size
(line 57). -/
def extractLoop (cmds : List Nat) : Nat → Nat → MachOInfo → MachOInfo
  | 0, _, info => info
  | n + 1, arrIndex, info =>
    if arrIndex > cmds.length ∨ arrIndex + 8 > cmds.length then info
    else extractLoop cmds n (arrIndex + readU32 cmds (arrIndex + 4)) (stepInfo cmds arrIndex info)

/-- `extractInfoFromHeader` on an already-read command buffer. -/
def extractInfoFromHeader (cmds : List Nat) (ncmds : Nat) (info : MachOInfo) : MachOInfo :=
  extractLoop cmds ncmds 0 info

/-- The walk of the same loop, recording each command the loop consumes
(i.e. each iteration that passes the guard of line 34 and reads the
`cmd`/`cmdsize` fields) as a pair (start offset, declared size). -/
def consumedCommands (cmds : List Nat) : Nat → Nat → List (Nat × Nat)
  | 0, _ => []
  | n + 1, arrIndex =>
    if arrIndex > cmds.length ∨ arrIndex + 8 > cmds.length then []
    else (arrIndex, readU32 cmds (arrIndex + 4)) ::
      consumedCommands cmds n (arrIndex + readU32 cmds (arrIndex + 4))

/-- Sum of the declared sizes of all commands the loop consumes. -/
def consumedSizeSum (cmds : List Nat) (ncmds : Nat) : Nat :=
  ((consumedCommands cmds ncmds 0).map Prod.snd).sum

/-- The fat-container loop of `parseMachO` (src/main.cpp lines 94-149).
State: remaining iteration count, current index `i`, the current value
of the `magic` variable (which line 133 overwrites with each parsed
slice magic), and the accumulated result list.  The record shape is the
64-bit `fat_arch_64` exactly when the current `magic` value equals
`FAT_MAGIC_64` (line 102); all fields are byte-reversed via `OSSwap*`
(lines 107-117).  On an unresolved architecture the entry is skipped
with `continue` (line 123) before the slice magic is read, so `magic`
is unchanged there. -/
def fatLoop (resolve : Nat → Nat → Option String) (f : List Nat) :
    Nat → Nat → Nat → List MachOInfo → List MachOInfo
  | 0, _, _, acc => acc
  | n + 1, i, magicVar, acc =>
    let base := if magicVar = FAT_MAGIC_64 then 8 + i * 32 else 8 + i * 20
    let ct := swap32 (readU32 f base)
    let cst := swap32 (readU32 f (base + 4))
    let off := if magicVar = FAT_MAGIC_64 then swap64 (readU64 f (base + 8))
               else swap32 (readU32 f (base + 8))
    match resolve ct cst with
    | none => fatLoop resolve f n (i + 1) magicVar acc
    | some archName =>
      let sliceMagic := readU32 f off
      let hs := if sliceMagic = MH_MAGIC_64 then 32 else 28
      let ncmds := readU32 f (off + 16)
      let sizeofcmds := readU32 f (off + 20)
      let info := extractInfoFromHeader (readBytes f (off + hs) sizeofcmds) ncmds
        ⟨archName, [], [], []⟩
      fatLoop resolve f n (i + 1) sliceMagic (acc ++ [info])

/-- `parseMachO` (src/main.cpp lines 61-206) on the bytes of one file.
The fat branch computes the architecture count with `OSSwapInt64` when
the magic is the native `FAT_MAGIC_64` and `OSSwapInt32` otherwise
(lines 88-92); the result is truncated to the 32-bit `nfat_arch` field.
The thin branch reads cputype/cpusubtype raw (no swap, lines 161-171),
and treats the image as 64-bit exactly when the magic is the native
`MH_MAGIC_64` (lines 161, 187). -/
def parseMachO (resolve : Nat → Nat → Option String) (f : List Nat) : List MachOInfo :=
  let magic := readU32 f 0
  if magic = FAT_MAGIC ∨ magic = FAT_MAGIC_64 ∨ magic = FAT_CIGAM ∨ magic = FAT_CIGAM_64 then
    let nfat := if magic = FAT_MAGIC_64 then swap64 (readU32 f 4) % 4294967296
                else swap32 (readU32 f 4)
    fatLoop resolve f nfat 0 magic []
  else if magic = MH_MAGIC ∨ magic = MH_MAGIC_64 ∨ magic = MH_CIGAM ∨ magic = MH_CIGAM_64 then
    match resolve (readU32 f 4) (readU32 f 8) with
    | none => []
    | some archName =>
      let hs := if magic = MH_MAGIC_64 then 32 else 28
      let info := extractInfoFromHeader (readBytes f hs (readU32 f 20)) (readU32 f 16)
        ⟨archName, [], [], []⟩
      [info]
  else []

/-- Concrete excerpt of the system architecture table behind
`NXGetArchInfoFromCpuType` (CPU_TYPE_I386/3 is "i386",
CPU_TYPE_X86_64/3 is "x86_64", CPU_TYPE_ARM64/0 is "arm64"); used for
the concrete scenarios below.  The real table is larger; nothing below
depends on entries outside this excerpt. -/
def nxResolve : Nat → Nat → Option String := fun ct cst =>
  if ct = 7 ∧ cst = 3 then some "i386"
  else if ct = 16777223 ∧ cst = 3 then some "x86_64"
  else if ct = 16777228 ∧ cst = 0 then some "arm64"
  else none

/-! Concrete synthesized inputs used by the witnesses, counterexamples
and concrete scenarios below. -/

/-- ASCII bytes of the install name of the §8 concrete scenario. -/
def idPath : List Nat := (String.toList "/usr/lib/libFoo.dylib").map Char.toNat

/-- ASCII bytes of the rpath of the §8 concrete scenario. -/
def rpPath : List Nat := (String.toList "@loader_path/../Frameworks").map Char.toNat

/-- The §8 concrete scenario: a 32-bit thin Mach-O (cputype 7,
cpusubtype 3), ncmds = 2, one ID_DYLIB command (24-byte fixed part,
string at offset 24, size 46) then one RPATH command (12-byte fixed
part, string at offset 12, size 39); sizeofcmds = 85. -/
def c9File : List Nat :=
  u32 MH_MAGIC ++ u32 7 ++ u32 3 ++ u32 6 ++ u32 2 ++ u32 85 ++ u32 0 ++
  (u32 LC_ID_DYLIB ++ u32 46 ++ u32 24 ++ u32 0 ++ u32 0 ++ u32 0 ++ idPath ++ [0]) ++
  (u32 LC_RPATH ++ u32 39 ++ u32 12 ++ rpPath ++ [0])

/-- A 16-byte command buffer holding a single RPATH command whose
declared size (100) exceeds the bytes remaining in the buffer; its
string offset (12) points at the in-buffer bytes "ab". -/
def oversizedCmdBuf : List Nat := u32 LC_RPATH ++ u32 100 ++ u32 12 ++ [97, 98, 0, 0]

/-- A 19-byte command buffer holding one RPATH command of declared size
12 whose string offset (16) lies outside [0, 12), pointing past the
command at the bytes "xy". -/
def offsetEscapeBuf : List Nat := u32 LC_RPATH ++ u32 12 ++ u32 16 ++ [0, 0, 0, 0] ++ [120, 121, 0]

/-- The same escaping-offset layout with a LOAD_DYLIB command type. -/
def offsetEscapeDylibBuf : List Nat :=
  u32 LC_LOAD_DYLIB ++ u32 12 ++ u32 16 ++ [0, 0, 0, 0] ++ [120, 121, 0]

/-- The same escaping-offset layout with a LOAD_WEAK_DYLIB command type. -/
def offsetEscapeWeakBuf : List Nat :=
  u32 LC_LOAD_WEAK_DYLIB ++ u32 12 ++ u32 16 ++ [0, 0, 0, 0] ++ [120, 121, 0]

/-- The same escaping-offset layout with an ID_DYLIB command type. -/
def offsetEscapeIdBuf : List Nat :=
  u32 LC_ID_DYLIB ++ u32 12 ++ u32 16 ++ [0, 0, 0, 0] ++ [120, 121, 0]

/-- A command buffer whose single command declares size 0 (the cursor
never advances). -/
def zeroSizeBuf : List Nat := u32 LC_RPATH ++ u32 0 ++ u32 12 ++ [97, 0]

/-- A native-endian 32-bit thin image: cputype 7 / cpusubtype 3, one
RPATH command whose path is the bytes "ab". -/
def nativeThin : List Nat :=
  u32 MH_MAGIC ++ u32 7 ++ u32 3 ++ u32 6 ++ u32 1 ++ u32 16 ++ u32 0 ++
  (u32 LC_RPATH ++ u32 16 ++ u32 12 ++ [97, 98, 0, 0])

/-- The byte-swapped (CIGAM) encoding of `nativeThin`: identical
content, every multi-byte field stored in the opposite byte order (the
inline string bytes are order-free). -/
def cigamThin : List Nat :=
  u32 MH_CIGAM ++ u32 (swap32 7) ++ u32 (swap32 3) ++ u32 (swap32 6) ++ u32 (swap32 1) ++
  u32 (swap32 16) ++ u32 0 ++
  (u32 (swap32 LC_RPATH) ++ u32 (swap32 16) ++ u32 (swap32 12) ++ [97, 98, 0, 0])

/-- A 64-bit thin arm64 image (cputype 0x0100000C raw = 16777228), one
RPATH command whose path is the bytes "ab". -/
def arm64Slice : List Nat :=
  u32 MH_MAGIC_64 ++ u32 16777228 ++ u32 0 ++ u32 6 ++ u32 1 ++ u32 16 ++ u32 0 ++ u32 0 ++
  (u32 LC_RPATH ++ u32 16 ++ u32 12 ++ [97, 98, 0, 0])

/-- A well-formed on-disk 64-bit fat container as read on the
little-endian host: the stored big-endian magic FAT_MAGIC_64 reads as
FAT_CIGAM_64, the stored count is 1, and the single big-endian
`fat_arch_64` record (cputype arm64, cpusubtype 0, 64-bit offset 48,
size, align, reserved 0) is followed by 8 bytes of padding and the
arm64 slice at offset 48. -/
def fatCigam64File : List Nat :=
  u32 FAT_CIGAM_64 ++ u32 16777216 ++
  u32 201326593 ++ u32 0 ++ [0, 0, 0, 0, 0, 0, 0, 48] ++ [0, 0, 0, 0, 0, 0, 0, 0] ++
  u32 0 ++ u32 0 ++ [0, 0, 0, 0, 0, 0, 0, 0] ++ arm64Slice

/-- The same container bytes except that the raw magic word reads as
the native FAT_MAGIC_64 value (the file stores it little-endian). -/
def fat64NativeFile : List Nat :=
  u32 FAT_MAGIC_64 ++ u32 16777216 ++
  u32 201326593 ++ u32 0 ++ [0, 0, 0, 0, 0, 0, 0, 48] ++ [0, 0, 0, 0, 0, 0, 0, 0] ++
  u32 0 ++ u32 0 ++ [0, 0, 0, 0, 0, 0, 0, 0] ++ arm64Slice

/-- The architecture-table record at index `i` read with the 64-bit
`fat_arch_64` shape as the spec words it (32-byte stride from offset 8;
cputype, cpusubtype and the 64-bit offset converted from big-endian):
a comparison definition following the spec, not the source. -/
def specFatEntry64 (f : List Nat) (i : Nat) : Nat × Nat × Nat :=
  (swap32 (readU32 f (8 + i * 32)), swap32 (readU32 f (8 + i * 32 + 4)),
    swap64 (readU64 f (8 + i * 32 + 8)))

/-! Synthesized interleavings of LOAD_DYLIB and RPATH commands for the
ordering property. -/

/-- One synthesized load command: a LOAD_DYLIB dependency on path `p`
or an RPATH entry `p`. -/
inductive LCItem where
  | dylib (p : List Nat)
  | rpath (p : List Nat)

/-- The path carried by a synthesized command. -/
def itemPath : LCItem → List Nat
  | .dylib p => p
  | .rpath p => p

/-- Well-formedness of an inline path: small enough for its command
size to fit a 32-bit field, and made of non-null bytes. -/
def pathOk (p : List Nat) : Prop :=
  p.length + 64 < 4294967296 ∧ ∀ b ∈ p, 0 < b ∧ b < 256

instance (p : List Nat) : Decidable (pathOk p) := by
  unfold pathOk; infer_instance

/-- On-disk encoding of one synthesized command: a `dylib_command`
(24-byte fixed part, string offset 24) or an `rpath_command` (12-byte
fixed part, string offset 12), with the null-terminated path inline and
the declared size exactly covering the command. -/
def encCmd : LCItem → List Nat
  | .dylib p => u32 LC_LOAD_DYLIB ++ u32 (25 + p.length) ++ u32 24 ++ u32 0 ++ u32 0 ++
      u32 0 ++ p ++ [0]
  | .rpath p => u32 LC_RPATH ++ u32 (13 + p.length) ++ u32 12 ++ p ++ [0]

/-- Concatenated encoding of a command stream. -/
def encCmds : List LCItem → List Nat
  | [] => []
  | it :: its => encCmd it ++ encCmds its

/-- The dependency paths of a stream, in on-disk order. -/
def itemDeps (its : List LCItem) : List (List Nat) :=
  its.filterMap fun it => match it with | .dylib p => some p | .rpath _ => none

/-- The rpath entries of a stream, in on-disk order. -/
def itemRpaths (its : List LCItem) : List (List Nat) :=
  its.filterMap fun it => match it with | .dylib _ => none | .rpath p => some p

/-- A synthesized 64-bit thin header: magic, cputype, cpusubtype,
filetype 6, ncmds, sizeofcmds, flags 0, reserved 0 (32 bytes). -/
def mkHeader64 (ct cst ncmds sizeofcmds : Nat) : List Nat :=
  u32 MH_MAGIC_64 ++ u32 ct ++ u32 cst ++ u32 6 ++ u32 ncmds ++ u32 sizeofcmds ++
    u32 0 ++ u32 0

/-- A synthesized well-formed 64-bit thin image carrying the command
stream `its`. -/
def mkThin64 (ct cst : Nat) (its : List LCItem) : List Nat :=
  mkHeader64 ct cst its.length (encCmds its).length ++ encCmds its

/-! Helper lemmas about the byte-level primitives. -/

theorem byteAt_append (a b : List Nat) (k : Nat) :
    byteAt (a ++ b) (a.length + k) = byteAt b k := by
  simp only [byteAt]
  rw [List.getD_append_right a b 0 _ (Nat.le_add_right _ _), Nat.add_sub_cancel_left]

theorem readU32_append (a b : List Nat) (k : Nat) :
    readU32 (a ++ b) (a.length + k) = readU32 b k := by
  simp only [readU32, Nat.add_assoc]
  rw [byteAt_append, byteAt_append, byteAt_append, byteAt_append]

theorem readU32_u32 (x : Nat) (q : List Nat) (h : x < 4294967296) :
    readU32 (u32 x ++ q) 0 = x := by
  show x % 256 % 256 + 256 * (x / 256 % 256 % 256) + 65536 * (x / 65536 % 256 % 256) +
    16777216 * (x / 16777216 % 256 % 256) = x
  omega

theorem drop_append_add (a b : List Nat) (m : Nat) :
    (a ++ b).drop (a.length + m) = b.drop m := by
  induction a with
  | nil => simp
  | cons x xs ih =>
    rw [List.cons_append, List.length_cons,
      show xs.length + 1 + m = (xs.length + m) + 1 by omega, List.drop_succ_cons, ih]

theorem takeUntilNull_exact (p rest : List Nat) (hp : ∀ b ∈ p, 0 < b ∧ b < 256) :
    takeUntilNull (p ++ 0 :: rest) = p := by
  induction p with
  | nil => simp [takeUntilNull]
  | cons b bs ih =>
    have hb := hp b (by simp)
    rw [List.cons_append, takeUntilNull, if_neg (by omega), Nat.mod_eq_of_lt hb.2,
      ih fun c hc => hp c (by simp [hc])]

theorem readBytes_exact (pre s : List Nat) (k : Nat) (hk : pre.length = k)
    (hb : ∀ b ∈ s, b < 256) : readBytes (pre ++ s) k s.length = s := by
  subst hk
  apply List.ext_getElem
  · simp [readBytes]
  · intro i h1 h2
    simp only [readBytes, List.getElem_map, List.getElem_range]
    rw [byteAt_append]
    simp only [byteAt]
    rw [List.getD_eq_getElem _ _ h2]
    exact Nat.mod_eq_of_lt (hb _ (List.getElem_mem h2))

theorem readCString_append (pre q : List Nat) (m : Nat) :
    readCString (pre ++ q) (pre.length + m) = readCString q m := by
  simp only [readCString]
  rw [drop_append_add]

/-! The decoder only reads the buffer at indices shifted by the cursor,
so a walk over `pre ++ q` starting at `pre.length + j` coincides with
the walk over `q` starting at `j`. -/

theorem stepInfo_append (pre q : List Nat) (j : Nat) (info : MachOInfo) :
    stepInfo (pre ++ q) (pre.length + j) info = stepInfo q j info := by
  have hc : readU32 (pre ++ q) (pre.length + j) = readU32 q j := readU32_append pre q j
  have ho : readU32 (pre ++ q) (pre.length + j + 8) = readU32 q (j + 8) := by
    rw [Nat.add_assoc]; exact readU32_append pre q (j + 8)
  have hstr : readCString (pre ++ q) (pre.length + j + readU32 q (j + 8)) =
      readCString q (j + readU32 q (j + 8)) := by
    rw [Nat.add_assoc]; exact readCString_append pre q _
  simp only [stepInfo, hc, ho, hstr]

theorem extractLoop_append (pre q : List Nat) (n : Nat) :
    ∀ (j : Nat) (info : MachOInfo),
      extractLoop (pre ++ q) n (pre.length + j) info = extractLoop q n j info := by
  induction n with
  | zero => intro j info; rfl
  | succ k ih =>
    intro j info
    rw [extractLoop, extractLoop]
    have hlen : (pre ++ q).length = pre.length + q.length := List.length_append pre q
    by_cases hg : j > q.length ∨ j + 8 > q.length
    · rw [if_pos (by omega), if_pos hg]
    · rw [if_neg (by omega), if_neg hg]
      have h4 : readU32 (pre ++ q) (pre.length + j + 4) = readU32 q (j + 4) := by
        rw [Nat.add_assoc]; exact readU32_append pre q (j + 4)
      rw [h4, stepInfo_append, show pre.length + j + readU32 q (j + 4) =
        pre.length + (j + readU32 q (j + 4)) by omega, ih]

theorem readU32_second (x y : Nat) (q : List Nat) (h : y < 4294967296) :
    readU32 (u32 x ++ (u32 y ++ q)) 4 = y := by
  have h1 : readU32 (u32 x ++ (u32 y ++ q)) 4 = readU32 (u32 y ++ q) 0 :=
    readU32_append (u32 x) (u32 y ++ q) 0
  rw [h1]; exact readU32_u32 y q h

theorem readU32_third (x y z : Nat) (q : List Nat) (h : z < 4294967296) :
    readU32 (u32 x ++ (u32 y ++ (u32 z ++ q))) 8 = z := by
  have h1 : readU32 (u32 x ++ (u32 y ++ (u32 z ++ q))) 8 = readU32 (u32 z ++ q) 0 :=
    readU32_append (u32 x ++ u32 y) (u32 z ++ q) 0
  rw [h1]; exact readU32_u32 z q h

/-! One decoding step on a synthesized command sitting at the start of
the buffer. -/

theorem extractLoop_cons_dylib (p T : List Nat) (n : Nat) (info : MachOInfo)
    (hp : pathOk p) :
    extractLoop (encCmd (LCItem.dylib p) ++ T) (n + 1) 0 info =
      extractLoop T n 0 { info with deps := info.deps ++ [p] } := by
  have hlen : (encCmd (LCItem.dylib p)).length = 25 + p.length := by
    simp [encCmd, u32]; omega
  have e : encCmd (LCItem.dylib p) ++ T =
      u32 LC_LOAD_DYLIB ++ (u32 (25 + p.length) ++ (u32 24 ++ (u32 0 ++ (u32 0 ++
        (u32 0 ++ (p ++ (0 :: T))))))) := by
    simp [encCmd, List.append_assoc]
  have hBlen : (encCmd (LCItem.dylib p) ++ T).length = 25 + p.length + T.length := by
    rw [List.length_append, hlen]
  have hcmd : readU32 (encCmd (LCItem.dylib p) ++ T) 0 = LC_LOAD_DYLIB := by
    rw [e]; exact readU32_u32 _ _ (by norm_num [LC_LOAD_DYLIB])
  have hsize : readU32 (encCmd (LCItem.dylib p) ++ T) 4 = 25 + p.length := by
    rw [e]; exact readU32_second _ _ _ (by have := hp.1; omega)
  have hoff : readU32 (encCmd (LCItem.dylib p) ++ T) 8 = 24 := by
    rw [e]; exact readU32_third _ _ _ _ (by norm_num)
  have hstr : readCString (encCmd (LCItem.dylib p) ++ T) (0 + 24) = p := by
    rw [e]; show takeUntilNull (p ++ 0 :: T) = p; exact takeUntilNull_exact p T hp.2
  have hstep : stepInfo (encCmd (LCItem.dylib p) ++ T) 0 info =
      { info with deps := info.deps ++ [p] } := by
    simp only [stepInfo, hcmd, hoff]
    rw [if_pos (Or.inl trivial), hstr]
  rw [extractLoop, if_neg (by omega), hsize, hstep,
    show 0 + (25 + p.length) = (encCmd (LCItem.dylib p)).length + 0 by omega]
  exact extractLoop_append (encCmd (LCItem.dylib p)) T n 0 _

theorem extractLoop_cons_rpath (p T : List Nat) (n : Nat) (info : MachOInfo)
    (hp : pathOk p) :
    extractLoop (encCmd (LCItem.rpath p) ++ T) (n + 1) 0 info =
      extractLoop T n 0 { info with rpaths := info.rpaths ++ [p] } := by
  have hlen : (encCmd (LCItem.rpath p)).length = 13 + p.length := by
    simp [encCmd, u32]; omega
  have e : encCmd (LCItem.rpath p) ++ T =
      u32 LC_RPATH ++ (u32 (13 + p.length) ++ (u32 12 ++ (p ++ (0 :: T)))) := by
    simp [encCmd, List.append_assoc]
  have hBlen : (encCmd (LCItem.rpath p) ++ T).length = 13 + p.length + T.length := by
    rw [List.length_append, hlen]
  have hcmd : readU32 (encCmd (LCItem.rpath p) ++ T) 0 = LC_RPATH := by
    rw [e]; exact readU32_u32 _ _ (by norm_num [LC_RPATH])
  have hsize : readU32 (encCmd (LCItem.rpath p) ++ T) 4 = 13 + p.length := by
    rw [e]; exact readU32_second _ _ _ (by have := hp.1; omega)
  have hoff : readU32 (encCmd (LCItem.rpath p) ++ T) 8 = 12 := by
    rw [e]; exact readU32_third _ _ _ _ (by norm_num)
  have hstr : readCString (encCmd (LCItem.rpath p) ++ T) (0 + 12) = p := by
    rw [e]; show takeUntilNull (p ++ 0 :: T) = p; exact takeUntilNull_exact p T hp.2
  have hstep : stepInfo (encCmd (LCItem.rpath p) ++ T) 0 info =
      { info with rpaths := info.rpaths ++ [p] } := by
    simp only [stepInfo, hcmd, hoff]
    rw [if_pos trivial, hstr, if_neg (by decide)]
  rw [extractLoop, if_neg (by omega), hsize, hstep,
    show 0 + (13 + p.length) = (encCmd (LCItem.rpath p)).length + 0 by omega]
  exact extractLoop_append (encCmd (LCItem.rpath p)) T n 0 _

/-- Decoding a buffer that is exactly the concatenated encoding of a
command stream yields the dependency and rpath paths of the stream, in
stream order, appended to the accumulators. -/
theorem extractLoop_encCmds (its : List LCItem) :
    ∀ info : MachOInfo, (∀ it ∈ its, pathOk (itemPath it)) →
      extractLoop (encCmds its) its.length 0 info =
        { info with deps := info.deps ++ itemDeps its,
                    rpaths := info.rpaths ++ itemRpaths its } := by
  induction its with
  | nil => intro info h; simp [encCmds, itemDeps, itemRpaths, extractLoop]
  | cons it rest ih =>
    intro info h
    have hit : pathOk (itemPath it) := h it (by simp)
    cases it with
    | dylib p =>
      rw [List.length_cons,
        show encCmds (LCItem.dylib p :: rest) = encCmd (LCItem.dylib p) ++ encCmds rest
          from rfl,
        extractLoop_cons_dylib p (encCmds rest) rest.length info hit,
        ih _ fun x hx => h x (by simp [hx])]
      simp [itemDeps, itemRpaths, List.filterMap_cons]
    | rpath p =>
      rw [List.length_cons,
        show encCmds (LCItem.rpath p :: rest) = encCmd (LCItem.rpath p) ++ encCmds rest
          from rfl,
        extractLoop_cons_rpath p (encCmds rest) rest.length info hit,
        ih _ fun x hx => h x (by simp [hx])]
      simp [itemDeps, itemRpaths, List.filterMap_cons]

theorem readU32_fifth (a b c d z : Nat) (q : List Nat) (h : z < 4294967296) :
    readU32 (u32 a ++ (u32 b ++ (u32 c ++ (u32 d ++ (u32 z ++ q))))) 16 = z := by
  have h1 : readU32 (u32 a ++ (u32 b ++ (u32 c ++ (u32 d ++ (u32 z ++ q))))) 16 =
      readU32 (u32 z ++ q) 0 :=
    readU32_append (u32 a ++ u32 b ++ u32 c ++ u32 d) (u32 z ++ q) 0
  rw [h1]; exact readU32_u32 z q h

theorem readU32_sixth (a b c d v z : Nat) (q : List Nat) (h : z < 4294967296) :
    readU32 (u32 a ++ (u32 b ++ (u32 c ++ (u32 d ++ (u32 v ++ (u32 z ++ q)))))) 20 = z := by
  have h1 : readU32 (u32 a ++ (u32 b ++ (u32 c ++ (u32 d ++ (u32 v ++ (u32 z ++ q)))))) 20 =
      readU32 (u32 z ++ q) 0 :=
    readU32_append (u32 a ++ u32 b ++ u32 c ++ u32 d ++ u32 v) (u32 z ++ q) 0
  rw [h1]; exact readU32_u32 z q h

theorem u32_bytes (x : Nat) : ∀ b ∈ u32 x, b < 256 := by
  intro b hb
  simp [u32] at hb
  rcases hb with h | h | h | h <;> omega

theorem encCmd_bytes (it : LCItem) (hp : pathOk (itemPath it)) :
    ∀ b ∈ encCmd it, b < 256 := by
  cases it with
  | dylib p =>
    intro b hb
    simp only [encCmd, List.mem_append] at hb
    rcases hb with ((((((h | h) | h) | h) | h) | h) | h) | h
    · exact u32_bytes _ b h
    · exact u32_bytes _ b h
    · exact u32_bytes _ b h
    · exact u32_bytes _ b h
    · exact u32_bytes _ b h
    · exact u32_bytes _ b h
    · exact (hp.2 b h).2
    · simp at h; omega
  | rpath p =>
    intro b hb
    simp only [encCmd, List.mem_append] at hb
    rcases hb with (((h | h) | h) | h) | h
    · exact u32_bytes _ b h
    · exact u32_bytes _ b h
    · exact u32_bytes _ b h
    · exact (hp.2 b h).2
    · simp at h; omega

theorem encCmds_bytes (its : List LCItem) (h : ∀ it ∈ its, pathOk (itemPath it)) :
    ∀ b ∈ encCmds its, b < 256 := by
  induction its with
  | nil => intro b hb; simp [encCmds] at hb
  | cons it rest ih =>
    intro b hb
    simp only [encCmds, List.mem_append] at hb
    rcases hb with hb | hb
    · exact encCmd_bytes it (h it (by simp)) b hb
    · exact ih (fun x hx => h x (by simp [hx])) b hb

/-! Remaining helper lemmas. -/

theorem extractLoop_out (cmds : List Nat) (n idx : Nat) (info : MachOInfo)
    (h : cmds.length < idx) : extractLoop cmds n idx info = info := by
  cases n with
  | zero => rfl
  | succ k => rw [extractLoop, if_pos (Or.inl h)]

/-! Claim theorems. -/

/-- C1, counterexample: a command buffer of 16 bytes whose single RPATH
command declares size 100 (exceeding the 16 bytes remaining before the
buffer end).  Contrary to the claim, the decoder does not stop at that
header: it still extracts the rpath string of the oversized command. -/
theorem c1_oversized_command_extracted :
    oversizedCmdBuf.length = 16 ∧ readU32 oversizedCmdBuf 0 = LC_RPATH ∧
    readU32 oversizedCmdBuf 4 = 100 ∧
    (extractInfoFromHeader oversizedCmdBuf 1 emptyInfo).rpaths = [[97, 98]] := by
  decide

/-- C1, amended: the declared command size is never validated — neither
against 8 nor against the bytes remaining.  Whenever the 8-byte header
guard at the top of an iteration passes, the command is fully
dispatched regardless of its declared size (at most one string appended
to the dependency or rpath accumulator, all previously extracted values
retained unchanged) and the cursor advances by exactly that size,
whatever it is — for a declared size of 0 the next iteration therefore
resumes at the same cursor, so decoding is not stopped there.  When the
declared size exceeds the bytes remaining before the buffer end, the
advanced cursor fails the next guard and decoding stops with the
dispatched state as the result. -/
theorem c1_no_size_validation (cmds : List Nat) (n arrIndex : Nat)
    (info : MachOInfo) (h1 : arrIndex + 8 <= cmds.length) :
    extractLoop cmds (n + 1) arrIndex info =
      extractLoop cmds n (arrIndex + readU32 cmds (arrIndex + 4))
        (stepInfo cmds arrIndex info) ∧
    (∃ t, (stepInfo cmds arrIndex info).deps = info.deps ++ t) ∧
    (∃ t, (stepInfo cmds arrIndex info).rpaths = info.rpaths ++ t) ∧
    (cmds.length < arrIndex + readU32 cmds (arrIndex + 4) →
      extractLoop cmds (n + 1) arrIndex info = stepInfo cmds arrIndex info) := by
  have hstep : extractLoop cmds (n + 1) arrIndex info =
      extractLoop cmds n (arrIndex + readU32 cmds (arrIndex + 4))
        (stepInfo cmds arrIndex info) := by
    rw [extractLoop, if_neg (by omega)]
  refine ⟨hstep, ?_, ?_, fun h2 => ?_⟩
  · simp only [stepInfo]
    split
    · exact ⟨_, rfl⟩
    · split
      · exact ⟨[], by simp⟩
      · split
        · exact ⟨[], by simp⟩
        · exact ⟨[], by simp⟩
  · simp only [stepInfo]
    split
    · exact ⟨[], by simp⟩
    · split
      · exact ⟨_, rfl⟩
      · split
        · exact ⟨[], by simp⟩
        · exact ⟨[], by simp⟩
  · rw [hstep]
    exact extractLoop_out cmds n _ _ h2

/-- C1 witness: the amended statement at the concrete oversized buffer
(whose declared size 100 also makes the stop-next-iteration implication
effective). -/
theorem c1_no_size_validation_witness :
    (extractLoop oversizedCmdBuf 1 0 emptyInfo =
      extractLoop oversizedCmdBuf 0 (0 + readU32 oversizedCmdBuf 4)
        (stepInfo oversizedCmdBuf 0 emptyInfo)) ∧
    (∃ t, (stepInfo oversizedCmdBuf 0 emptyInfo).deps = emptyInfo.deps ++ t) ∧
    (∃ t, (stepInfo oversizedCmdBuf 0 emptyInfo).rpaths = emptyInfo.rpaths ++ t) ∧
    (oversizedCmdBuf.length < 0 + readU32 oversizedCmdBuf 4 →
      extractLoop oversizedCmdBuf 1 0 emptyInfo = stepInfo oversizedCmdBuf 0 emptyInfo) :=
  c1_no_size_validation oversizedCmdBuf 0 0 emptyInfo (by decide)

/-- C4, counterexample: an RPATH command of declared size 12 whose
string offset 16 lies outside [0, 12); contrary to the claim, the field
is not skipped — the decoder reads the string from beyond the command
extent (bytes 16-17 of the buffer, "xy"). -/
theorem c4_offset_escape_extracted :
    readU32 offsetEscapeBuf 4 = 12 ∧ readU32 offsetEscapeBuf 8 = 16 ∧
    (extractInfoFromHeader offsetEscapeBuf 1 emptyInfo).rpaths = [[120, 121]] := by
  decide

/-- C4, amended: no validation of the string offset happens at all.
For each of the four recognised command types — LOAD_DYLIB,
LOAD_WEAK_DYLIB, RPATH and ID_DYLIB — the string is read
unconditionally from command start + offset up to the first null byte,
whatever the offset is (inside or outside [0, command_size)), appended
to the dependency list, appended to the search-path list, or written to
the install name respectively, and decoding of subsequent commands
continues in every case. -/
theorem c4_no_offset_validation :
    (∀ (cmds : List Nat) (n arrIndex : Nat) (info : MachOInfo),
      arrIndex + 8 <= cmds.length →
      (readU32 cmds arrIndex = LC_LOAD_DYLIB ∨
        readU32 cmds arrIndex = LC_LOAD_WEAK_DYLIB) →
      extractLoop cmds (n + 1) arrIndex info =
        extractLoop cmds n (arrIndex + readU32 cmds (arrIndex + 4))
          { info with deps := info.deps ++
              [readCString cmds (arrIndex + readU32 cmds (arrIndex + 8))] }) ∧
    (∀ (cmds : List Nat) (n arrIndex : Nat) (info : MachOInfo),
      arrIndex + 8 <= cmds.length → readU32 cmds arrIndex = LC_RPATH →
      extractLoop cmds (n + 1) arrIndex info =
        extractLoop cmds n (arrIndex + readU32 cmds (arrIndex + 4))
          { info with rpaths := info.rpaths ++
              [readCString cmds (arrIndex + readU32 cmds (arrIndex + 8))] }) ∧
    (∀ (cmds : List Nat) (n arrIndex : Nat) (info : MachOInfo),
      arrIndex + 8 <= cmds.length → readU32 cmds arrIndex = LC_ID_DYLIB →
      extractLoop cmds (n + 1) arrIndex info =
        extractLoop cmds n (arrIndex + readU32 cmds (arrIndex + 4))
          { info with
              dylib_id := readCString cmds (arrIndex + readU32 cmds (arrIndex + 8)) }) := by
  refine ⟨?_, ?_, ?_⟩
  · intro cmds n arrIndex info h1 hcmd
    rw [extractLoop, if_neg (by omega)]
    congr 1
    rcases hcmd with h | h
    · simp only [stepInfo, h]
      rw [if_pos (Or.inl trivial)]
    · simp only [stepInfo, h]
      rw [if_pos (Or.inr trivial)]
  · intro cmds n arrIndex info h1 hcmd
    rw [extractLoop, if_neg (by omega)]
    congr 1
    simp only [stepInfo, hcmd]
    rw [if_pos trivial, if_neg (by decide)]
  · intro cmds n arrIndex info h1 hcmd
    rw [extractLoop, if_neg (by omega)]
    congr 1
    simp only [stepInfo, hcmd]
    rw [if_pos trivial, if_neg (by decide), if_neg (by decide)]

/-- C4 witness: the amended statement at four concrete escaping
buffers, one per recognised command type. -/
theorem c4_no_offset_validation_witness :
    (extractLoop offsetEscapeDylibBuf 1 0 emptyInfo =
      extractLoop offsetEscapeDylibBuf 0 (0 + readU32 offsetEscapeDylibBuf 4)
        { emptyInfo with deps := emptyInfo.deps ++
            [readCString offsetEscapeDylibBuf (0 + readU32 offsetEscapeDylibBuf 8)] }) ∧
    (extractLoop offsetEscapeWeakBuf 1 0 emptyInfo =
      extractLoop offsetEscapeWeakBuf 0 (0 + readU32 offsetEscapeWeakBuf 4)
        { emptyInfo with deps := emptyInfo.deps ++
            [readCString offsetEscapeWeakBuf (0 + readU32 offsetEscapeWeakBuf 8)] }) ∧
    (extractLoop offsetEscapeBuf 1 0 emptyInfo =
      extractLoop offsetEscapeBuf 0 (0 + readU32 offsetEscapeBuf 4)
        { emptyInfo with rpaths := emptyInfo.rpaths ++
            [readCString offsetEscapeBuf (0 + readU32 offsetEscapeBuf 8)] }) ∧
    (extractLoop offsetEscapeIdBuf 1 0 emptyInfo =
      extractLoop offsetEscapeIdBuf 0 (0 + readU32 offsetEscapeIdBuf 4)
        { emptyInfo with
            dylib_id := readCString offsetEscapeIdBuf (0 + readU32 offsetEscapeIdBuf 8) }) :=
  ⟨c4_no_offset_validation.1 offsetEscapeDylibBuf 0 0 emptyInfo (by decide)
      (Or.inl (by decide)),
   c4_no_offset_validation.1 offsetEscapeWeakBuf 0 0 emptyInfo (by decide)
      (Or.inr (by decide)),
   c4_no_offset_validation.2.1 offsetEscapeBuf 0 0 emptyInfo (by decide) (by decide),
   c4_no_offset_validation.2.2 offsetEscapeIdBuf 0 0 emptyInfo (by decide) (by decide)⟩

/-- C8, counterexample: in the oversized-command buffer the loop
consumes one command of declared size 100, so the sum of consumed
command sizes (100) exceeds the declared buffer length (16). -/
theorem c8_consumed_sum_exceeds :
    consumedCommands oversizedCmdBuf 1 0 = [(0, 100)] ∧
    oversizedCmdBuf.length < consumedSizeSum oversizedCmdBuf 1 := by
  decide

/-- C8, amended: every consumed command starts where the guard saw at
least 8 remaining bytes, so the sum of the declared sizes of all
consumed commands except the last one (which equals the last command
start offset minus the initial cursor) stays at least 8 below the
buffer length; only the final consumed command can push the total past
`sizeofcmds`. -/
theorem c8_consumed_sum_bound (cmds : List Nat) (n : Nat) :
    ∀ arrIndex : Nat, consumedCommands cmds n arrIndex ≠ [] →
      arrIndex + (((consumedCommands cmds n arrIndex).dropLast.map Prod.snd).sum) + 8 ≤
        cmds.length := by
  induction n with
  | zero => intro arrIndex h; simp [consumedCommands] at h
  | succ k ih =>
    intro arrIndex h
    rw [consumedCommands] at h ⊢
    by_cases hc : arrIndex > cmds.length ∨ arrIndex + 8 > cmds.length
    · rw [if_pos hc] at h; exact absurd rfl h
    · rw [if_neg hc] at h ⊢
      push_neg at hc
      rcases hrest : consumedCommands cmds k (arrIndex + readU32 cmds (arrIndex + 4)) with
        _ | ⟨hd, tl⟩
      · simp only [List.dropLast_single, List.map_nil, List.sum_nil]
        omega
      · have hne : consumedCommands cmds k (arrIndex + readU32 cmds (arrIndex + 4)) ≠ [] := by
          rw [hrest]; exact fun hx => List.noConfusion hx
        have hih := ih (arrIndex + readU32 cmds (arrIndex + 4)) hne
        rw [hrest] at hih
        rw [List.dropLast_cons₂]
        simp only [List.map_cons, List.sum_cons]
        omega

/-- C8 witness: the partial-sum bound at the oversized buffer. -/
theorem c8_consumed_sum_bound_witness :
    0 + (((consumedCommands oversizedCmdBuf 1 0).dropLast.map Prod.snd).sum) + 8 ≤
      oversizedCmdBuf.length :=
  c8_consumed_sum_bound oversizedCmdBuf 1 0 (by decide)

/-- C9: the §8 concrete scenario.  The 32-bit thin image with one
ID_DYLIB and one RPATH command yields exactly one record whose
architecture is the resolver name for the header cputype/cpusubtype
pair (7, 3), whose install name is /usr/lib/libFoo.dylib, whose
dependency list is empty and whose search paths are exactly the one
rpath. -/
theorem c9_concrete_scenario :
    readU32 c9File 4 = 7 ∧ readU32 c9File 8 = 3 ∧ nxResolve 7 3 = some "i386" ∧
    parseMachO nxResolve c9File = [⟨"i386", idPath, [], [rpPath]⟩] := by
  decide

/-- C10: the load-command loop performs at most `ncmds` iterations —
the consumed-command list is never longer than the iteration budget —
and it is total by construction; a zero-size command does not advance
the cursor but still spends one iteration, as the concrete buffer with
a single zero-size command shows (exactly 5 consumed entries at
`ncmds` = 5, all at offset 0). -/
theorem c10_iteration_bound :
    (∀ (cmds : List Nat) (n arrIndex : Nat),
      (consumedCommands cmds n arrIndex).length ≤ n) ∧
    consumedCommands zeroSizeBuf 5 0 = [(0, 0), (0, 0), (0, 0), (0, 0), (0, 0)] := by
  constructor
  · intro cmds n
    induction n with
    | zero => intro arrIndex; simp [consumedCommands]
    | succ k ih =>
      intro arrIndex
      rw [consumedCommands]
      split
      · simp
      · simpa using Nat.succ_le_succ (ih _)
  · decide

/-- C2, counterexample: a native 32-bit thin image (cputype 7,
cpusubtype 3, one RPATH "ab") yields one record, while its CIGAM
encoding of identical content (every multi-byte field byte-swapped)
yields zero records: the parser performs no byte swapping, so the
resolver is consulted with the swapped cputype and fails. -/
theorem c2_cigam_differs :
    parseMachO nxResolve nativeThin = [⟨"i386", [], [], [[97, 98]]⟩] ∧
    parseMachO nxResolve cigamThin = [] := by
  decide

/-- C2, amended: CIGAM thin magics are accepted by the magic switch but
no field of the header or command stream is ever byte-swapped — the
header words are used raw.  In particular the resolver sees the raw
(byte-swapped relative to content) cputype/cpusubtype, and whenever
that lookup fails the image yields zero records, so a CIGAM encoding
does not reproduce the record of its native encoding. -/
theorem c2_cigam_not_swapped (resolve : Nat → Nat → Option String) (f : List Nat)
    (hm : readU32 f 0 = MH_CIGAM ∨ readU32 f 0 = MH_CIGAM_64)
    (hr : resolve (readU32 f 4) (readU32 f 8) = none) :
    parseMachO resolve f = [] := by
  rcases hm with hm | hm <;>
    · simp only [parseMachO, hm]
      rw [if_neg (by decide), if_pos (by decide), hr]

/-- C2 witness: the amended statement at the concrete CIGAM image. -/
theorem c2_cigam_not_swapped_witness : parseMachO nxResolve cigamThin = [] :=
  c2_cigam_not_swapped nxResolve cigamThin (Or.inl (by decide)) (by decide)

/-- C3, code bug: a well-formed on-disk 64-bit fat container (stored
big-endian magic FAT_MAGIC_64 reads as FAT_CIGAM_64 on the host).  Read
with the 64-bit fat_arch_64 shape, as the spec and the format demand,
its single entry is (arm64, 0, offset 48), and the slice at 48 indeed
parses to a record with rpath "ab".  The code instead selects the
64-bit record shape only when the (clobbered) magic variable equals the
native FAT_MAGIC_64 constant, so it reads this entry with the 32-bit
fat_arch shape: the offset field is taken from the wrong bytes (0), and
the emitted record is the header reparsed as a slice — the rpath is
lost. -/
theorem c3_cigam64_record_shape_bug :
    readU32 fatCigam64File 0 = FAT_CIGAM_64 ∧
    specFatEntry64 fatCigam64File 0 = (16777228, 0, 48) ∧
    parseMachO nxResolve (fatCigam64File.drop 48) = [⟨"arm64", [], [], [[97, 98]]⟩] ∧
    parseMachO nxResolve fatCigam64File = [⟨"arm64", [], [], []⟩] := by
  refine ⟨by decide, by decide, ?_, by decide⟩
  show parseMachO nxResolve arm64Slice = [⟨"arm64", [], [], [[97, 98]]⟩]
  decide

/-- C6, code bug: for a container whose raw magic word equals the
native FAT_MAGIC_64 the code computes the architecture count as the
32-bit truncation of OSSwapInt64 applied to the 32-bit count field,
which is always 0 — here the stored big-endian count is 1 (its correct
conversion, `swap32`, yields 1) yet the parser enumerates no entry and
returns no record at all. -/
theorem c6_fat64_count_truncated :
    readU32 fat64NativeFile 0 = FAT_MAGIC_64 ∧
    swap32 (readU32 fat64NativeFile 4) = 1 ∧
    swap64 (readU32 fat64NativeFile 4) % 4294967296 = 0 ∧
    parseMachO nxResolve fat64NativeFile = [] := by
  decide

/-- C7: an architecture-table entry whose (cputype, cpusubtype) pair
the resolver does not know is skipped — nothing is appended and the
loop moves to the next index with the same magic state — and a thin
image whose raw header pair is unresolved yields zero records; neither
failure aborts anything else. -/
theorem c7_unresolved_skipped :
    (∀ (resolve : Nat → Nat → Option String) (f : List Nat) (n i magicVar : Nat)
      (acc : List MachOInfo),
      resolve
        (swap32 (readU32 f (if magicVar = FAT_MAGIC_64 then 8 + i * 32 else 8 + i * 20)))
        (swap32 (readU32 f ((if magicVar = FAT_MAGIC_64 then 8 + i * 32 else 8 + i * 20) + 4)))
        = none →
      fatLoop resolve f (n + 1) i magicVar acc = fatLoop resolve f n (i + 1) magicVar acc) ∧
    (∀ (resolve : Nat → Nat → Option String) (f : List Nat),
      (readU32 f 0 = MH_MAGIC ∨ readU32 f 0 = MH_MAGIC_64 ∨
        readU32 f 0 = MH_CIGAM ∨ readU32 f 0 = MH_CIGAM_64) →
      resolve (readU32 f 4) (readU32 f 8) = none →
      parseMachO resolve f = []) := by
  constructor
  · intro resolve f n i magicVar acc h
    simp only [fatLoop]
    rw [h]
  · intro resolve f hm hr
    rcases hm with hm | hm | hm | hm <;>
      · simp only [parseMachO, hm]
        rw [if_neg (by decide), if_pos (by decide), hr]

/-- C7 witness: both parts at concrete inputs — the always-failing
resolver skips the entry of an empty file, and a thin-magic file with
an unresolved header pair yields zero records. -/
theorem c7_unresolved_skipped_witness :
    fatLoop (fun _ _ => none) [] 1 0 0 [] = fatLoop (fun _ _ => none) [] 0 1 0 [] ∧
    parseMachO (fun _ _ => none) (u32 MH_MAGIC) = [] :=
  ⟨c7_unresolved_skipped.1 (fun _ _ => none) [] 0 0 0 [] rfl,
   c7_unresolved_skipped.2 (fun _ _ => none) (u32 MH_MAGIC) (Or.inl (by decide)) rfl⟩

/-- C5: a well-formed synthesized 64-bit thin image whose command
stream interleaves LOAD_DYLIB and RPATH commands in any order parses to
exactly one record whose dependency list is exactly the dylib paths of
the stream and whose search-path list is exactly the rpath entries of
the stream, each in on-disk encounter order (`itemDeps` and
`itemRpaths` are order-preserving projections of the stream). -/
theorem c5_interleaved_order (its : List LCItem) (resolve : Nat → Nat → Option String)
    (ct cst : Nat) (a : String)
    (hct : ct < 4294967296) (hcst : cst < 4294967296)
    (hn : its.length < 4294967296) (hL : (encCmds its).length < 4294967296)
    (hp : ∀ it ∈ its, pathOk (itemPath it))
    (hr : resolve ct cst = some a) :
    parseMachO resolve (mkThin64 ct cst its) =
      [⟨a, [], itemDeps its, itemRpaths its⟩] := by
  have e : mkThin64 ct cst its =
      u32 MH_MAGIC_64 ++ (u32 ct ++ (u32 cst ++ (u32 6 ++ (u32 its.length ++
        (u32 (encCmds its).length ++ (u32 0 ++ (u32 0 ++ encCmds its))))))) := by
    simp [mkThin64, mkHeader64, List.append_assoc]
  have h0 : readU32 (mkThin64 ct cst its) 0 = MH_MAGIC_64 := by
    rw [e]; exact readU32_u32 _ _ (by norm_num [MH_MAGIC_64])
  have h4 : readU32 (mkThin64 ct cst its) 4 = ct := by
    rw [e]; exact readU32_second _ _ _ hct
  have h8 : readU32 (mkThin64 ct cst its) 8 = cst := by
    rw [e]; exact readU32_third _ _ _ _ hcst
  have h16 : readU32 (mkThin64 ct cst its) 16 = its.length := by
    rw [e]; exact readU32_fifth _ _ _ _ _ _ hn
  have h20 : readU32 (mkThin64 ct cst its) 20 = (encCmds its).length := by
    rw [e]; exact readU32_sixth _ _ _ _ _ _ _ hL
  have hbuf : readBytes (mkThin64 ct cst its) 32 (encCmds its).length = encCmds its := by
    rw [mkThin64]
    exact readBytes_exact _ _ 32 rfl (encCmds_bytes its hp)
  simp only [parseMachO, h0, h4, h8, h16, h20]
  rw [if_neg (by decide), if_pos (by decide), hr, if_pos (by decide)]
  rw [hbuf]
  simp only [extractInfoFromHeader]
  rw [extractLoop_encCmds its _ hp]
  simp

/-- C5 witness: a concrete interleaving dylib "A", rpath "B",
dylib "C" yields dependencies [A, C] and search paths [B], in order. -/
theorem c5_interleaved_order_witness :
    parseMachO nxResolve
      (mkThin64 7 3 [LCItem.dylib [65], LCItem.rpath [66], LCItem.dylib [67]]) =
      [⟨"i386", [], [[65], [67]], [[66]]⟩] := by
  rw [c5_interleaved_order [LCItem.dylib [65], LCItem.rpath [66], LCItem.dylib [67]]
    nxResolve 7 3 "i386" (by decide) (by decide) (by decide) (by decide) (by decide)
    (by decide)]
  decide

end MacDep
